import Mathlib

/-!
Shallow embedding of `scraper.py` (an asynchronous product-catalog scraper)
and proofs of the specification claims about it.

The Python source is embedded function by function:
* `clean_string`, `clean_stock` — pure text normalization helpers;
* `get_product_data` — builds the product record (a Python dict, embedded as
  an ordered association list, since insertion order matters for the CSV);
* `save_data_to_csv` — the CSV sink (`data[0].keys()` raises `IndexError`
  on empty input before the file is opened, embedded as `Except`);
* `get_next_page_url` — pagination extraction (`xpath(...)[0]` raises
  `IndexError` when no match, embedded as `Except`);
* `verify_response`, `send_request` — the bounded retry loop, parameterized
  by a stub giving the response of each attempt;
* the product phase of `start_scraping` — `asyncio.gather` is modelled with
  an explicit completion order (a permutation of the task indices), since
  `gather` re-imposes dispatch order on the results.

HTML documents are abstracted to the tuple of XPath query results the code
extracts from them (lists of text fragments / attribute values), which is the
only view of the document the code uses.
-/

namespace AsyncScraper

/-- Characters that the Python `str.split()` method (no argument) treats as whitespace
(the ASCII fragment; the inputs of the code are ASCII-range web text). -/
def pyIsSpace (c : Char) : Bool :=
  c = ' ' || c = '\t' || c = '\n' || c = '\r' || c = '\x0B' || c = '\x0C'

/-- Core of Python `str.split()` with no argument, on character lists:
split on runs of whitespace, discarding empty fragments. `cur` is the
current word accumulated in reverse. -/
def splitWsAux : List Char → List Char → List (List Char)
  | [], cur => if cur = [] then [] else [cur.reverse]
  | c :: rest, cur =>
    if pyIsSpace c then
      if cur = [] then splitWsAux rest []
      else cur.reverse :: splitWsAux rest []
    else splitWsAux rest (c :: cur)

/-- Python `s.split()` with no argument. -/
def pySplit (s : String) : List String :=
  (splitWsAux s.data []).map (fun w => String.mk w)

/-- Python `connector.join(pieces)` on character lists: the pieces joined
with the connector between consecutive pieces. -/
def pyJoinChars (connector : List Char) : List (List Char) → List Char
  | [] => []
  | [w] => w
  | w :: ws => w ++ connector ++ pyJoinChars connector ws

/-- Python `connector.join(pieces)` for a list of strings. -/
def pyJoin (connector : String) (pieces : List String) : String :=
  String.mk (pyJoinChars connector.data (pieces.map String.data))

/-- Python `s.replace(old, EMPTY)` with an empty replacement (remove all occurrences of `old`,
left to right, non-overlapping), on character lists, fuel-based; the fuel
is the length of the subject string, which suffices because every step
consumes at least one character when `old` is nonempty. -/
def pyRemoveAux (pat : List Char) : Nat → List Char → List Char
  | 0, cs => cs
  | fuel + 1, cs =>
    match cs with
    | [] => []
    | c :: rest =>
      if pat ≠ [] && pat.isPrefixOf (c :: rest) then
        pyRemoveAux pat fuel ((c :: rest).drop pat.length)
      else c :: pyRemoveAux pat fuel rest

/-- Python `s.replace(old, EMPTY)` with an empty replacement, for strings (the only use of `replace`
in the source, with an empty replacement). -/
def pyRemove (s old : String) : String :=
  String.mk (pyRemoveAux old.data s.data.length s.data)

/-- `clean_string(list_or_txt, connector=' ')` from the source:
`None` for a falsy (empty) input, otherwise
`' '.join(connector.join(list_or_txt).split())`. Every call site passes a
list of strings (XPath results), so the input is embedded as `List String`;
the default connector `' '` is passed explicitly by the embedding's callers. -/
def clean_string (list_or_txt : List String) (connector : String) : Option String :=
  if list_or_txt = [] then none
  else some (pyJoin " " (pySplit (pyJoin connector list_or_txt)))

/-- `clean_stock(stock)` from the source: normalize via `clean_string`,
then (when the result is truthy, i.e. neither `None` nor the empty string)
remove the text " in stock" via `str.replace`, else return `None`. -/
def clean_stock (stock : List String) : Option String :=
  match clean_string stock " " with
  | none => none
  | some s => if s = "" then none else some (pyRemove s " in stock")

/-- A product page, abstracted to the results of the five XPath queries
`get_product_data` runs against it: text fragments for title, price, stock
and description, and the gallery anchor `href` values. A missing element
yields an empty result list, exactly as `parser.xpath(...)` does. -/
structure ProductDoc where
  titleTexts : List String
  priceTexts : List String
  stockTexts : List String
  descriptionTexts : List String
  imageHrefs : List String
  deriving DecidableEq, Repr

/-- `get_product_data(response)` from the source: the returned dict, as an
ordered association list (Python dicts preserve insertion order, which
`save_data_to_csv` relies on through `data[0].keys()`). `Option String`
embeds a value that may be Python `None`; `Product_URL` is `response.url`,
always present. -/
def get_product_data (parser : ProductDoc) (product_url : String) :
    List (String × Option String) :=
  [("Title", clean_string parser.titleTexts " "),
   ("Price", clean_string parser.priceTexts " "),
   ("Stock", clean_stock parser.stockTexts),
   ("Description", clean_string parser.descriptionTexts " "),
   ("Image_URL", clean_string parser.imageHrefs " | "),
   ("Product_URL", some product_url)]

/-- How `csv.DictWriter` renders one cell: Python `None` becomes the empty
field, a string is written as is (quoting is irrelevant to the claims). -/
def csvCell : Option String → String
  | none => ""
  | some v => v

/-- `save_data_to_csv(data, filename)` from the source. `data[0]` raises
`IndexError` on an empty list before `open(filename)` runs, so no file is
created: the embedding returns the written file (header row then one row
per record) in `Except`, where an error means no file came into being.
A key of the first record missing from a later record would be written as
the `DictWriter` default (empty); key lookup mirrors that with `getD`. -/
def save_data_to_csv (data : List (List (String × Option String))) :
    Except String (List (List String)) :=
  match data with
  | [] => .error "IndexError: list index out of range"
  | first :: _ =>
    let keys := first.map Prod.fst
    .ok (keys ::
      data.map (fun row => keys.map (fun k => csvCell ((row.lookup k).getD none))))

/-- `get_next_page_url(response)` from the source, abstracted over the
result list of the XPath query `(//a[@class="next page-numbers"])[1]/@href`:
the code indexes `[0]` into that list, which raises `IndexError` when no
anchor with class exactly `next page-numbers` exists. -/
def get_next_page_url (next_page_matches : List String) : Except String String :=
  match next_page_matches with
  | [] => .error "IndexError: list index out of range"
  | url :: _ => .ok url

/-- An HTTP response as the retry loop sees it: its status code, and
whether the body has been materialized (`await response.text()`). -/
structure Response where
  status : Nat
  materialized : Bool
  deriving DecidableEq, Repr

/-- `verify_response(response)` from the source:
`True if response.status == 200 else False`. -/
def verify_response (response : Response) : Bool :=
  if response.status = 200 then true else false

/-- The `for retry in range(max_retry)` loop of `send_request`, parameterized
by a stub `attempts` giving the response of each attempt (attempt `retry`
opens a fresh session and connection). On a verified response the body is
materialized and the response returned, ending the loop; when the fuel runs
out the code raises. The second component counts the attempts made. -/
def send_request_loop (attempts : Nat → Response) (retry : Nat) :
    Nat → Except String Response × Nat
  | 0 => (.error "Stopping the code execution as invalid response received.", 0)
  | fuel + 1 =>
    let response := attempts retry
    if verify_response response then
      (.ok { response with materialized := true }, 1)
    else
      let rec_result := send_request_loop attempts (retry + 1) fuel
      (rec_result.1, rec_result.2 + 1)

/-- `max_retry = 3` from the source. -/
def max_retry : Nat := 3

/-- `send_request(url)` from the source, parameterized by the stub of the
successive attempt responses of the URL: result plus total number of attempts. -/
def send_request (attempts : Nat → Response) : Except String Response × Nat :=
  send_request_loop attempts 0 max_retry

/-- The completion log of a batch of concurrent tasks: `order` lists task
indices in the order their fetches complete, and each completion pairs the
index with the result of that task. -/
def completion_events (run : Nat → α) (order : List Nat) : List (Nat × α) :=
  order.map (fun i => (i, run i))

/-- `asyncio.gather(*tasks)`: results are collected as tasks complete (in
completion order) but returned indexed by dispatch order, one slot per
task `0..n-1`. `dflt` fills a slot whose task never completed (never used
when `order` covers every index). -/
def gather (n : Nat) (run : Nat → α) (dflt : α) (order : List Nat) : List α :=
  (List.range n).map (fun i => ((completion_events run order).lookup i).getD dflt)

/-- The default `ProductDoc`: a document none of whose queries match. -/
def emptyDoc : ProductDoc := ⟨[], [], [], [], []⟩

/-- The product phase of `start_scraping`: one `send_request` task per
discovered product URL, dispatched in discovery order, gathered, then
`get_product_data` is run over the gathered responses in that same order
and the results appended in order. `fetchDoc` abstracts a successful fetch
(the parsed body of each URL); the response carries its URL
(`response.url`), modelled by pairing. `order` is the fetch completion
order. -/
def product_phase (product_urls : List String) (fetchDoc : String → ProductDoc)
    (order : List Nat) : List (List (String × Option String)) :=
  (gather product_urls.length
      (fun i => (fetchDoc (product_urls.getD i ""), product_urls.getD i ""))
      (emptyDoc, "") order).map
    (fun pr => get_product_data pr.1 pr.2)

/-- A fetch stub for the retry property: attempts 0 and 1 come back with
status 503, attempt 2 with status 200. -/
def stubThirdTry : Nat → Response :=
  fun k => { status := if k = 2 then 200 else 503, materialized := false }

/-- A fetch stub whose every attempt comes back with status 503. -/
def stubAlwaysFail : Nat → Response :=
  fun _ => { status := 503, materialized := false }

/-- A stub page body for the ordering property: each URL fetches a document
whose title text is the URL itself. -/
def stubDoc : String → ProductDoc :=
  fun u => { titleTexts := [u], priceTexts := [], stockTexts := [],
             descriptionTexts := [], imageHrefs := [] }

/-- Whether a sink run produced an output file: only a normal
(non-raising) run of `save_data_to_csv` creates one. -/
def producesFile (result : Except String (List (List String))) : Bool :=
  match result with
  | .ok _ => true
  | .error _ => false

/-! Helper lemmas about the embedded Python string primitives. -/

theorem splitWsAux_all_space :
    ∀ cs : List Char, (∀ c ∈ cs, pyIsSpace c = true) → splitWsAux cs [] = [] := by
  intro cs
  induction cs with
  | nil => intro _; rfl
  | cons c rest ih =>
    intro h
    have hc : pyIsSpace c = true := h c (List.mem_cons_self c rest)
    simp [splitWsAux, hc]
    exact ih (fun x hx => h x (List.mem_cons_of_mem c hx))

theorem pyJoinChars_space_all_space :
    ∀ ws : List (List Char), (∀ w ∈ ws, ∀ c ∈ w, pyIsSpace c = true) →
      ∀ c ∈ pyJoinChars [' '] ws, pyIsSpace c = true := by
  intro ws
  induction ws with
  | nil => intro _ c hc; simp [pyJoinChars] at hc
  | cons w ws ih =>
    intro h c hc
    cases ws with
    | nil =>
      simp only [pyJoinChars] at hc
      exact h w (List.mem_cons_self w []) c hc
    | cons w2 ws2 =>
      simp only [pyJoinChars] at hc
      rw [List.append_assoc] at hc
      rcases List.mem_append.mp hc with hw | hrest
      · exact h w (List.mem_cons_self w _) c hw
      · rcases List.mem_append.mp hrest with hsp | htail
        · have hc2 : c = ' ' := by simpa using hsp
          subst hc2; rfl
        · exact ih (fun v hv => h v (List.mem_cons_of_mem w hv)) c htail

theorem splitWsAux_nonspace_append :
    ∀ (w : List Char), (∀ c ∈ w, pyIsSpace c = false) →
      ∀ (rest acc : List Char),
        splitWsAux (w ++ rest) acc = splitWsAux rest (w.reverse ++ acc) := by
  intro w
  induction w with
  | nil => intro _ rest acc; simp
  | cons c w ih =>
    intro h rest acc
    have hc : pyIsSpace c = false := h c (List.mem_cons_self c w)
    simp only [List.cons_append, splitWsAux, hc, Bool.false_eq_true, if_false]
    have ih2 := ih (fun x hx => h x (List.mem_cons_of_mem c hx)) rest (c :: acc)
    rw [List.reverse_cons, List.append_assoc]
    exact ih2

theorem splitWsAux_join_words :
    ∀ ws : List (List Char),
      (∀ w ∈ ws, w ≠ [] ∧ ∀ c ∈ w, pyIsSpace c = false) →
      splitWsAux (pyJoinChars [' '] ws) [] = ws := by
  intro ws
  induction ws with
  | nil => intro _; rfl
  | cons w ws ih =>
    intro h
    obtain ⟨hw, hwc⟩ := h w (List.mem_cons_self w ws)
    have hrev : ¬(w.reverse = []) := by simpa using hw
    cases ws with
    | nil =>
      show splitWsAux w [] = [w]
      have e := splitWsAux_nonspace_append w hwc [] []
      simp only [List.append_nil] at e
      rw [e]
      show (if w.reverse = [] then [] else [w.reverse.reverse]) = [w]
      rw [if_neg hrev]
      simp
    | cons w2 ws2 =>
      show splitWsAux (w ++ [' '] ++ pyJoinChars [' '] (w2 :: ws2)) [] = w :: w2 :: ws2
      rw [List.append_assoc, splitWsAux_nonspace_append w hwc _ []]
      show splitWsAux (' ' :: pyJoinChars [' '] (w2 :: ws2)) (w.reverse ++ []) = _
      simp only [splitWsAux, List.append_nil]
      have hsp : pyIsSpace ' ' = true := rfl
      rw [if_pos hsp, if_neg hrev]
      rw [ih (fun v hv => h v (List.mem_cons_of_mem w hv))]
      simp

theorem pyJoin_singleton (connector s : String) : pyJoin connector [s] = s := rfl

theorem clean_string_nil (connector : String) : clean_string [] connector = none := rfl

theorem clean_stock_nil : clean_stock [] = none := rfl

/-- A non-empty input all of whose fragments are whitespace-only normalizes
to the empty string under the default connector. -/
theorem clean_string_all_space (l : List String) (hne : l ≠ [])
    (h : ∀ s ∈ l, ∀ c ∈ s.data, pyIsSpace c = true) :
    clean_string l " " = some "" := by
  unfold clean_string
  rw [if_neg hne]
  have hjoin : ∀ c ∈ pyJoinChars [' '] (l.map String.data), pyIsSpace c = true := by
    apply pyJoinChars_space_all_space
    intro w hw
    obtain ⟨s, hs, rfl⟩ := List.mem_map.mp hw
    exact h s hs
  have hsplit : splitWsAux (pyJoinChars [' '] (l.map String.data)) [] = [] :=
    splitWsAux_all_space _ hjoin
  show some (pyJoin " " (pySplit (pyJoin " " l))) = some ""
  unfold pySplit pyJoin
  simp only [show (" " : String).data = [' '] from rfl]
  rw [hsplit]
  rfl

theorem map_mk_data (l : List String) : l.map (fun s => String.mk s.data) = l := by
  have h := List.map_congr_left (l := l) (f := fun s => String.mk s.data) (g := id)
    (fun a _ => rfl)
  exact h.trans (List.map_id l)

/-- Claim C3 (code bug): on a listing page with no anchor of class exactly
`next page-numbers`, `get_next_page_url` indexes `[0]` into an empty XPath
result list and raises `IndexError`, instead of signalling an absent result
as the specification requires for the normal last-page condition. -/
theorem get_next_page_url_no_match_raises :
    get_next_page_url [] = .error "IndexError: list index out of range" := rfl

/-- Claim C4: `get_product_data` is total over parsed documents (it is a
plain function, never an error), each field of the record is extracted from
its own query alone — so a field whose source element is missing (an empty
query result) comes back absent while the remaining fields are still
extracted — and an empty query result indeed normalizes to the absent
value for every cleaning function used. -/
theorem get_product_data_missing_field_absent (parser : ProductDoc) (url : String) :
    (get_product_data parser url).lookup "Title" = some (clean_string parser.titleTexts " ") ∧
    (get_product_data parser url).lookup "Price" = some (clean_string parser.priceTexts " ") ∧
    (get_product_data parser url).lookup "Stock" = some (clean_stock parser.stockTexts) ∧
    (get_product_data parser url).lookup "Description" =
      some (clean_string parser.descriptionTexts " ") ∧
    (get_product_data parser url).lookup "Image_URL" =
      some (clean_string parser.imageHrefs " | ") ∧
    (get_product_data parser url).lookup "Product_URL" = some (some url) ∧
    clean_string [] " " = none ∧ clean_string [] " | " = none ∧ clean_stock [] = none :=
  ⟨rfl, rfl, rfl, rfl, rfl, rfl, rfl, rfl, rfl⟩

/-- Claim C5 counterexample: the code removes every occurrence of the text
" in stock" (Python `str.replace`), not only a trailing one: on the stock
text "2 in stock in stock" it yields "2", while removing only a trailing
occurrence would yield "2 in stock". -/
theorem clean_stock_not_trailing_only :
    clean_stock ["2 in stock in stock"] = some "2" ∧
    ("2" : String) ≠ "2 in stock" := by
  exact ⟨rfl, by decide⟩

/-- Claim C5 (amended): the Stock field is the normalized stock text with
every occurrence of the substring " in stock" removed (not only a trailing
one); an empty or absent input — and likewise a whitespace-only input,
which normalizes to the empty string — yields the absent value. -/
theorem clean_stock_spec (stock : List String) :
    (stock = [] → clean_stock stock = none) ∧
    ((∀ s ∈ stock, ∀ c ∈ s.data, pyIsSpace c = true) → clean_stock stock = none) ∧
    (∀ s, clean_string stock " " = some s → s ≠ "" →
      clean_stock stock = some (pyRemove s " in stock")) := by
  refine ⟨?_, ?_, ?_⟩
  · intro h; subst h; rfl
  · intro h
    by_cases hne : stock = []
    · subst hne; rfl
    · have hcs : clean_string stock " " = some "" := clean_string_all_space stock hne h
      unfold clean_stock
      rw [hcs]
      simp
  · intro s hs hne
    unfold clean_stock
    rw [hs]
    simp [hne]

/-- Claim C5 witness: the stock text "5 in stock" normalizes to itself, is
non-empty, and yields the Stock value with the suffix removed; the
whitespace-only input yields the absent value. -/
theorem clean_stock_spec_witness :
    clean_string ["5 in stock"] " " = some "5 in stock" ∧
    ("5 in stock" : String) ≠ "" ∧
    clean_stock ["5 in stock"] = some (pyRemove "5 in stock" " in stock") ∧
    (∀ s ∈ ([" "] : List String), ∀ c ∈ s.data, pyIsSpace c = true) ∧
    clean_stock [" "] = none :=
  ⟨rfl, by decide,
   (clean_stock_spec ["5 in stock"]).2.2 "5 in stock" rfl (by decide),
   by decide,
   (clean_stock_spec [" "]).2.1 (by decide)⟩

/-- Claim C6: normalization is idempotent — for every already-normalized
string (words free of whitespace, joined by single spaces, no leading or
trailing whitespace), `clean_string` with the default connector returns it
unchanged. -/
theorem clean_string_idempotent (words : List String)
    (h : ∀ w ∈ words, w.data ≠ [] ∧ ∀ c ∈ w.data, pyIsSpace c = false) :
    clean_string [pyJoin " " words] " " = some (pyJoin " " words) := by
  unfold clean_string
  rw [if_neg (by simp : ¬([pyJoin " " words] = []))]
  rw [pyJoin_singleton]
  unfold pySplit
  rw [show (pyJoin " " words).data = pyJoinChars [' '] (words.map String.data) from rfl]
  rw [splitWsAux_join_words (words.map String.data)
    (by intro w hw
        obtain ⟨s, hs, rfl⟩ := List.mem_map.mp hw
        exact h s hs)]
  rw [List.map_map]
  rw [show ((fun w => String.mk w) ∘ String.data) = fun s => String.mk s.data from rfl]
  rw [map_mk_data]

/-- Claim C6 witness: the already-normalized string "ab c" is returned
unchanged. -/
theorem clean_string_idempotent_witness :
    (∀ w ∈ (["ab", "c"] : List String), w.data ≠ [] ∧ ∀ c ∈ w.data, pyIsSpace c = false) ∧
    clean_string [pyJoin " " ["ab", "c"]] " " = some (pyJoin " " ["ab", "c"]) :=
  ⟨by decide, clean_string_idempotent ["ab", "c"] (by decide)⟩

/-- Claim C7 counterexample: on the whitespace-only fragment list
`[" "]` — a non-empty, hence truthy, input whose normalization result is
empty — `clean_string` returns the empty string, not the absent marker
`None`. -/
theorem clean_string_blank_not_absent :
    clean_string [" "] " " = some "" ∧ clean_string [" "] " " ≠ none :=
  ⟨rfl, by decide⟩

/-- Claim C7 (amended): `clean_string` returns the absent marker exactly
for the empty (falsy) input list; a non-empty input whose normalization
result is empty (whitespace-only text fragments) is returned as the empty
string, not as the absent marker. -/
theorem clean_string_empty_result (l : List String) :
    (l = [] → clean_string l " " = none) ∧
    (l ≠ [] → (∀ s ∈ l, ∀ c ∈ s.data, pyIsSpace c = true) →
      clean_string l " " = some "") := by
  refine ⟨?_, ?_⟩
  · intro h; subst h; rfl
  · intro hne h; exact clean_string_all_space l hne h

/-- Claim C7 witness: the empty input is absent, while the whitespace-only
input `[" ", "\t"]` yields the present empty string. -/
theorem clean_string_empty_result_witness :
    clean_string [] " " = none ∧
    clean_string [" ", "\t"] " " = some "" :=
  ⟨(clean_string_empty_result []).1 rfl,
   (clean_string_empty_result [" ", "\t"]).2 (by decide) (by decide)⟩

/-! Lemmas about the retry loop of `send_request`. -/

theorem send_request_loop_count_le (attempts : Nat → Response) :
    ∀ (fuel retry : Nat), (send_request_loop attempts retry fuel).2 ≤ fuel := by
  intro fuel
  induction fuel with
  | zero => intro _; exact Nat.le_refl 0
  | succ n ih =>
    intro retry
    by_cases h : verify_response (attempts retry) = true
    · simp [send_request_loop, h]
    · have e : (send_request_loop attempts retry (n + 1)).2 =
          (send_request_loop attempts (retry + 1) n).2 + 1 := by
        simp [send_request_loop, h]
      have := ih (retry + 1)
      omega

theorem send_request_loop_all_fail (attempts : Nat → Response) :
    ∀ (fuel retry : Nat),
      (∀ i, i < fuel → verify_response (attempts (retry + i)) = false) →
      send_request_loop attempts retry fuel =
        (.error "Stopping the code execution as invalid response received.", fuel) := by
  intro fuel
  induction fuel with
  | zero => intro retry _; rfl
  | succ n ih =>
    intro retry h
    have h0 : verify_response (attempts retry) = false := by
      have := h 0 (Nat.succ_pos n)
      simpa using this
    have ih2 := ih (retry + 1) (fun i hi => by
      have hx := h (i + 1) (by omega)
      rw [show retry + 1 + i = retry + (i + 1) from by omega]
      exact hx)
    simp [send_request_loop, h0, ih2]

theorem send_request_loop_first_success (attempts : Nat → Response) :
    ∀ (fuel j retry : Nat), j < fuel →
      verify_response (attempts (retry + j)) = true →
      (∀ i, i < j → verify_response (attempts (retry + i)) = false) →
      send_request_loop attempts retry fuel =
        (.ok { attempts (retry + j) with materialized := true }, j + 1) := by
  intro fuel
  induction fuel with
  | zero => intro j retry hj; exact absurd hj (Nat.not_lt_zero j)
  | succ n ih =>
    intro j retry hj hsucc hfail
    cases j with
    | zero =>
      have h0 : verify_response (attempts retry) = true := by simpa using hsucc
      simp [send_request_loop, h0]
    | succ k =>
      have h0 : verify_response (attempts retry) = false := by
        have := hfail 0 (Nat.succ_pos k)
        simpa using this
      have ih2 := ih k (retry + 1) (by omega)
        (by rw [show retry + 1 + k = retry + (k + 1) from by omega]; exact hsucc)
        (fun i hi => by
          rw [show retry + 1 + i = retry + (i + 1) from by omega]
          exact hfail (i + 1) (by omega))
      simp [send_request_loop, h0, ih2]
      rw [show retry + 1 + k = retry + (k + 1) from by omega]

theorem verify_response_eq_true (r : Response) :
    verify_response r = true ↔ r.status = 200 := by
  unfold verify_response
  by_cases h : r.status = 200 <;> simp [h]

theorem verify_response_eq_false (r : Response) :
    verify_response r = false ↔ r.status ≠ 200 := by
  rw [← Bool.not_eq_true, not_iff_not]
  exact verify_response_eq_true r

/-- Claim C1: `send_request` makes at most `max_retry = 3` attempts per URL;
when the first attempt with status 200 is attempt `j` (counting from 0), it
returns that response — with its body materialized — after exactly `j + 1`
attempts; and when all 3 attempts fail to return status 200 it makes
exactly 3 attempts and then reports the terminal failure, never a 4th
attempt. -/
theorem send_request_retry_policy (attempts : Nat → Response) :
    (send_request attempts).2 ≤ 3 ∧
    (∀ j, j < 3 → (attempts j).status = 200 →
      (∀ i, i < j → (attempts i).status ≠ 200) →
      send_request attempts = (.ok { attempts j with materialized := true }, j + 1)) ∧
    ((∀ i, i < 3 → (attempts i).status ≠ 200) →
      send_request attempts =
        (.error "Stopping the code execution as invalid response received.", 3)) := by
  refine ⟨send_request_loop_count_le attempts 3 0, ?_, ?_⟩
  · intro j hj hst hfail
    have h := send_request_loop_first_success attempts 3 j 0 hj
      (by rw [Nat.zero_add]; exact (verify_response_eq_true _).mpr hst)
      (fun i hi => by
        rw [Nat.zero_add]
        exact (verify_response_eq_false _).mpr (hfail i hi))
    rw [Nat.zero_add] at h
    exact h
  · intro hfail
    exact send_request_loop_all_fail attempts 3 0 (fun i hi => by
      rw [Nat.zero_add]
      exact (verify_response_eq_false _).mpr (hfail i hi))

/-- Claim C1 witness: a stub failing twice then succeeding on the 3rd
attempt returns the successful, materialized response after exactly 3
attempts, and a stub that always fails makes exactly 3 attempts and then
reports the terminal failure. -/
theorem send_request_retry_policy_witness :
    (stubThirdTry 2).status = 200 ∧
    (∀ i, i < 2 → (stubThirdTry i).status ≠ 200) ∧
    send_request stubThirdTry = (.ok { stubThirdTry 2 with materialized := true }, 3) ∧
    (∀ i, i < 3 → (stubAlwaysFail i).status ≠ 200) ∧
    send_request stubAlwaysFail =
      (.error "Stopping the code execution as invalid response received.", 3) :=
  ⟨by decide, by decide,
   (send_request_retry_policy stubThirdTry).2.1 2 (by decide) (by decide) (by decide),
   by decide,
   (send_request_retry_policy stubAlwaysFail).2.2 (by decide)⟩

/-! Lemmas about the `asyncio.gather` model. -/

theorem lookup_completion_events (run : Nat → α) :
    ∀ (order : List Nat) (i : Nat), i ∈ order →
      (completion_events run order).lookup i = some (run i) := by
  intro order
  induction order with
  | nil => intro i hi; exact absurd hi (List.not_mem_nil i)
  | cons j rest ih =>
    intro i hi
    show List.lookup i ((j, run j) :: completion_events run rest) = some (run i)
    by_cases hij : i = j
    · subst hij
      simp [List.lookup]
    · have hb : (i == j) = false := by simpa using hij
      show (match i == j with
        | true => some (run j)
        | false => List.lookup i (completion_events run rest)) = some (run i)
      rw [hb]
      exact ih i ((List.mem_cons.mp hi).resolve_left hij)

theorem gather_eq_map (n : Nat) (run : Nat → α) (dflt : α) (order : List Nat)
    (h : ∀ i, i < n → i ∈ order) :
    gather n run dflt order = (List.range n).map run := by
  unfold gather
  apply List.map_congr_left
  intro i hi
  rw [lookup_completion_events run order i (h i (List.mem_range.mp hi))]
  rfl

theorem range_map_getD (l : List σ) (f : σ → β) (d : σ) :
    (List.range l.length).map (fun i => f (l.getD i d)) = l.map f := by
  induction l with
  | nil => rfl
  | cons x xs ih =>
    rw [List.length_cons, List.range_succ_eq_map, List.map_cons, List.map_map]
    show f x :: (List.range xs.length).map (fun i => f (xs.getD i d)) = f x :: xs.map f
    rw [ih]

/-- Claim C2: whatever order the concurrent product fetches complete in
(any permutation of the dispatched task indices), the record sequence of
the product phase is ordered by the original dispatch order of the product
URLs — completion order never leaks into the result. -/
theorem product_phase_ordering (product_urls : List String)
    (fetchDoc : String → ProductDoc) (order : List Nat)
    (h : order.Perm (List.range product_urls.length)) :
    product_phase product_urls fetchDoc order =
      product_urls.map (fun u => get_product_data (fetchDoc u) u) := by
  unfold product_phase
  rw [gather_eq_map product_urls.length _ _ order
    (fun i hi => h.mem_iff.mpr (List.mem_range.mpr hi))]
  rw [List.map_map]
  exact range_map_getD product_urls (fun u => get_product_data (fetchDoc u) u) ""

/-- Claim C2 witness: dispatching `[u1, u2, u3]` with completion order
`[u3, u1, u2]` (indices `[2, 0, 1]`) still yields the records of `u1`,
`u2`, `u3` in dispatch order. -/
theorem product_phase_ordering_witness :
    ([2, 0, 1] : List Nat).Perm (List.range (["u1", "u2", "u3"] : List String).length) ∧
    product_phase ["u1", "u2", "u3"] stubDoc [2, 0, 1] =
      (["u1", "u2", "u3"] : List String).map (fun u => get_product_data (stubDoc u) u) :=
  ⟨by decide, product_phase_ordering ["u1", "u2", "u3"] stubDoc [2, 0, 1] (by decide)⟩

/-- Claim C8 counterexample: the header row written by the sink holds the
key names of the record dict, `Image_URL` and `Product_URL` for the last
two columns — not the names `ImageURLs` and `ProductURL` stated by the
claim. -/
theorem save_data_header_names :
    save_data_to_csv [get_product_data emptyDoc "u"] =
      .ok [["Title", "Price", "Stock", "Description", "Image_URL", "Product_URL"],
           ["", "", "", "", "", "u"]] ∧
    (["Title", "Price", "Stock", "Description", "Image_URL", "Product_URL"] :
        List String) ≠
      ["Title", "Price", "Stock", "Description", "ImageURLs", "ProductURL"] :=
  ⟨rfl, by decide⟩

/-- Claim C8 (amended): for every non-empty sequence of records produced by
`get_product_data`, the output file consists of the header row with the
field names in the order `Title, Price, Stock, Description, Image_URL,
Product_URL`, followed by one row per record. -/
theorem save_data_header_row (records : List (ProductDoc × String))
    (h : records ≠ []) :
    ∃ rows : List (List String),
      save_data_to_csv (records.map (fun pr => get_product_data pr.1 pr.2)) =
        .ok (["Title", "Price", "Stock", "Description", "Image_URL", "Product_URL"]
          :: rows) ∧
      rows.length = records.length := by
  cases records with
  | nil => exact absurd rfl h
  | cons p ps =>
    refine ⟨((p :: ps).map (fun pr => get_product_data pr.1 pr.2)).map
      (fun row =>
        (["Title", "Price", "Stock", "Description", "Image_URL", "Product_URL"] :
            List String).map
          (fun k => csvCell ((row.lookup k).getD none))), ?_, ?_⟩
    · rfl
    · simp

/-- Claim C8 witness: one record yields a header row plus one product row. -/
theorem save_data_header_row_witness :
    ([(emptyDoc, "u")] : List (ProductDoc × String)) ≠ [] ∧
    ∃ rows : List (List String),
      save_data_to_csv
          (([(emptyDoc, "u")] : List (ProductDoc × String)).map
            (fun pr => get_product_data pr.1 pr.2)) =
        .ok (["Title", "Price", "Stock", "Description", "Image_URL", "Product_URL"]
          :: rows) ∧
      rows.length = ([(emptyDoc, "u")] : List (ProductDoc × String)).length :=
  ⟨by decide, save_data_header_row [(emptyDoc, "u")] (by decide)⟩

/-- Claim C9: on an empty record sequence the sink fails — `data[0]` raises
`IndexError` before `open(filename)` runs — so the failure is reported and
no output file is produced. -/
theorem save_data_empty_error :
    save_data_to_csv [] = .error "IndexError: list index out of range" ∧
    producesFile (save_data_to_csv []) = false :=
  ⟨rfl, rfl⟩

/-- Claim C10: every record produced by `get_product_data` has exactly the
six keys `Title, Price, Stock, Description, Image_URL, Product_URL` in that
fixed insertion order, so the key list inferred from any record equals the
key list of any other record — schema inference from the first record is
deterministic and covers every key of every subsequent record. -/
theorem record_keys_fixed (parser : ProductDoc) (url : String)
    (parser2 : ProductDoc) (url2 : String) :
    (get_product_data parser url).map Prod.fst =
      ["Title", "Price", "Stock", "Description", "Image_URL", "Product_URL"] ∧
    (get_product_data parser url).map Prod.fst =
      (get_product_data parser2 url2).map Prod.fst :=
  ⟨rfl, rfl⟩

end AsyncScraper
